import Mathlib

/-!
# blink_w_timer: the GPIO2 blinker of `user_main.c`

A shallow embedding of `src/user_main.c` (ESP8266 NON-OS firmware).  The
program has two functions, `timer_function` and `user_init`, and one
file-scoped variable, `the_timer`.  Everything else it touches belongs to
the platform SDK: the memory-mapped GPIO registers, the pin multiplexer
register of GPIO2 and the software timer service.  Those platform parts
are modelled below, each marked as such; `gpio_init`, about which nothing
is documented, is kept as a parameter of `user_init`.

Registers are natural numbers; every register write truncates to 32 bits.
-/

namespace BlinkWTimer

/-! ## Constants of the SDK headers -/

/-- Modelled from the spec: the SDK header constant `BIT2` is missing from the
sources; bit 2 of the output register is the controlled pin, so the mask is
`0x00000004`. -/
def BIT2 : Nat := 0x4

/-- All-ones value of a 32-bit register, used for the C complement `~x`. -/
def UINT32_MAX : Nat := 2 ^ 32 - 1

/-- Modelled from the spec: the SDK header constant `FUNC_GPIO2` is missing
from the sources; it is the function number that selects the general-purpose
role of pin 2 (value 0 in the SDK header). -/
def FUNC_GPIO2 : Nat := 0

/-- Modelled from the spec: the SDK header constant `PERIPHS_IO_MUX_FUNC` is
missing from the sources; it is the (unshifted) mask of the function-select
field of a pin multiplexer register. -/
def PERIPHS_IO_MUX_FUNC : Nat := 0x13

/-- Modelled from the spec: the SDK header constant `PERIPHS_IO_MUX_FUNC_S` is
missing from the sources; it is the position of the function-select field. -/
def PERIPHS_IO_MUX_FUNC_S : Nat := 4

/-! ## Hardware and timer state -/

/-- The memory-mapped registers the program reads or writes: the GPIO output
register (`GPIO_OUT_ADDRESS`), the GPIO output-enable register and the pin
multiplexer register `PERIPHS_IO_MUX_GPIO2_U`. -/
structure Gpio where
  out : Nat
  enable : Nat
  mux : Nat
deriving DecidableEq, Repr

/-- A function pointer as stored in a timer: `NULL`, the address of
`timer_function`, or any other address. -/
inductive FuncPtr where
  | null
  | timer_function
  | other (addr : Nat)
deriving DecidableEq, Repr

/-- The fields of an `os_timer_t` that the timer service uses: whether the
timer is armed, its period in milliseconds, its repeat flag, and the bound
callback with its argument. -/
structure Timer where
  armed : Bool
  period : Nat
  repeat_flag : Bool
  pfunction : FuncPtr
  parg : Nat
deriving DecidableEq, Repr

/-- A call of the timer service on `the_timer`. -/
inductive TimerCall where
  | disarm
  | setfn (pfunction : FuncPtr) (parg : Nat)
  | arm (milliseconds : Nat) (repeat_flag : Bool)
deriving DecidableEq, Repr

/-- The state of the device as far as the program can change it: the
registers, the file-scoped `the_timer`, and a history of the timer-service
calls made on `the_timer`, each with the armed flag the timer had when the
call was made (a ghost record, used to state ordering properties). -/
structure Hw where
  gpio : Gpio
  the_timer : Timer
  history : List (TimerCall × Bool)
deriving DecidableEq, Repr

/-! ## Platform operations -/

/-- Modelled from the spec: the SDK routine `gpio_output_set` is missing from
the sources.  Its four masks are written, in this order, to the
write-1-to-set and write-1-to-clear ports of the output register and of the
output-enable register: a set bit of `set_mask` drives that pin HIGH, a set
bit of `clear_mask` drives it LOW, and pins whose bit is 0 in both masks are
left unaffected; likewise for `enable_mask` and `disable_mask`. -/
def gpio_output_set (set_mask clear_mask enable_mask disable_mask : Nat)
    (g : Gpio) : Gpio :=
  let out1 := (g.out ||| set_mask) % 2 ^ 32
  let out2 := (out1 &&& (UINT32_MAX ^^^ clear_mask)) % 2 ^ 32
  let en1 := (g.enable ||| enable_mask) % 2 ^ 32
  let en2 := (en1 &&& (UINT32_MAX ^^^ disable_mask)) % 2 ^ 32
  { g with out := out2, enable := en2 }

/-- Modelled from the spec: the SDK header definition of `GPIO_REG_READ` is
missing from the sources.  Applied to `GPIO_OUT_ADDRESS` it reads the current
value of the output register itself, not a cached copy. -/
def GPIO_REG_READ_OUT (g : Gpio) : Nat := g.out

/-- Modelled from the spec: the SDK header definition of `PIN_FUNC_SELECT` is
missing from the sources.  On the value of the pin's multiplexer register it
clears the function-select field and writes the encoding of `func` into it,
overriding any prior function multiplexing and keeping the other bits:
`(reg & ~(MUX_FUNC << S)) | ((((func & BIT2) << 2) | (func & 0x3)) << S)`. -/
def PIN_FUNC_SELECT (reg func : Nat) : Nat :=
  ((reg &&& (UINT32_MAX ^^^ (PERIPHS_IO_MUX_FUNC <<< PERIPHS_IO_MUX_FUNC_S)))
    ||| ((((func &&& BIT2) <<< 2) ||| (func &&& 0x3)) <<< PERIPHS_IO_MUX_FUNC_S))
    % 2 ^ 32

/-- The statement `PIN_FUNC_SELECT(PERIPHS_IO_MUX_GPIO2_U, func)` as a step on
the registers. -/
def pin_func_select_gpio2 (func : Nat) (g : Gpio) : Gpio :=
  { g with mux := PIN_FUNC_SELECT g.mux func }

/-- Modelled from the spec: the SDK routine `os_delay_us` is missing from the
sources.  It is a short busy delay; time is not part of the state, so it
leaves the state as it is. -/
def os_delay_us (_us : Nat) (s : Hw) : Hw := s

/-- Modelled from the spec: the SDK routine `os_timer_disarm` is missing from
the sources.  `disarm()`: Armed or Disarmed goes to Disarmed. -/
def os_timer_disarm (s : Hw) : Hw :=
  { s with
    the_timer := { s.the_timer with armed := false }
    history := s.history ++ [(TimerCall.disarm, s.the_timer.armed)] }

/-- Modelled from the spec: the SDK routine `os_timer_setfn` is missing from
the sources.  `bind_callback(fn)`: associates the callback (and its argument)
to invoke on each firing. -/
def os_timer_setfn (pfunction : FuncPtr) (parg : Nat) (s : Hw) : Hw :=
  { s with
    the_timer := { s.the_timer with pfunction := pfunction, parg := parg }
    history := s.history ++ [(TimerCall.setfn pfunction parg, s.the_timer.armed)] }

/-- Modelled from the spec: the SDK routine `os_timer_arm` is missing from the
sources.  `arm(period_ms, repeat)`: the timer becomes Armed with the given
period and repeat flag. -/
def os_timer_arm (milliseconds : Nat) (repeat_flag : Bool) (s : Hw) : Hw :=
  { s with
    the_timer := { s.the_timer with
      armed := true, period := milliseconds, repeat_flag := repeat_flag }
    history := s.history ++
      [(TimerCall.arm milliseconds repeat_flag, s.the_timer.armed)] }

/-- Modelled from the spec: the state machine of the Periodic Invoker, as a
check of one call against the armed flag at the time of the call: `disarm` is
safe in both states, `bind_callback` is valid only while Disarmed, and `arm`
is the transition from Disarmed to Armed. -/
def callPermitted : TimerCall × Bool → Bool
  | (TimerCall.disarm, _) => true
  | (TimerCall.setfn _ _, armed) => !armed
  | (TimerCall.arm _ _, armed) => !armed

/-! ## The program -/

/-- The timer callback of `user_main.c`: read the output register; if
`GPIO_REG_READ(GPIO_OUT_ADDRESS) & BIT2` is nonzero call
`gpio_output_set(0, BIT2, BIT2, 0)`, otherwise call
`gpio_output_set(BIT2, 0, BIT2, 0)`; then `os_delay_us(100)`. -/
def timer_function (s : Hw) : Hw :=
  let s1 : Hw :=
    if GPIO_REG_READ_OUT s.gpio &&& BIT2 ≠ 0 then
      { s with gpio := gpio_output_set 0 BIT2 BIT2 0 s.gpio }
    else
      { s with gpio := gpio_output_set BIT2 0 BIT2 0 s.gpio }
  os_delay_us 100 s1

/-- The entry function of `user_main.c`.  `gpio_init` is an SDK routine whose
effect is not documented; it is a parameter, acting on the registers only
(`the_timer` is a static variable of `user_main.c`, out of its reach). -/
def user_init (gpio_init : Gpio → Gpio) (s : Hw) : Hw :=
  let s1 : Hw := { s with gpio := gpio_init s.gpio }
  let s2 : Hw := { s1 with gpio := pin_func_select_gpio2 FUNC_GPIO2 s1.gpio }
  let s3 : Hw := { s2 with gpio := gpio_output_set 0 BIT2 BIT2 0 s2.gpio }
  let s4 := os_timer_disarm s3
  let s5 := os_timer_setfn FuncPtr.timer_function 0 s4
  os_timer_arm 1000 true s5

/-! ## Firing of the timer -/

/-- Modelled from the spec: the firing contract of the Periodic Invoker, which
is platform code missing from the sources.  A firing happens only while the
timer is Armed; it invokes the bound callback exactly once; if the repeat flag
is set the timer stays Armed, otherwise it becomes Disarmed.  The only
callback the program defines is `timer_function`; a firing through any other
pointer has no defined result. -/
def fire (s : Hw) : Option Hw :=
  if s.the_timer.armed then
    match s.the_timer.pfunction with
    | FuncPtr.timer_function =>
      let s1 := timer_function s
      if s1.the_timer.repeat_flag then some s1
      else some { s1 with the_timer := { s1.the_timer with armed := false } }
    | _ => none
  else none

/-- The state after `k` consecutive firings, when each of them is defined. -/
def fireN : Nat → Hw → Option Hw
  | 0, s => some s
  | k + 1, s => (fire s).bind (fireN k)

/-- The timer registration that `user_init` leaves behind: Armed, 1000 ms,
repeating, bound to `timer_function` with a `NULL` argument. -/
def armedTimer : Timer :=
  { armed := true, period := 1000, repeat_flag := true,
    pfunction := FuncPtr.timer_function, parg := 0 }

/-- A sample power-on state: pin 2 driven HIGH, other registers holding
leftovers, the timer armed by an earlier run with another callback. -/
def sampleHw : Hw :=
  { gpio := { out := 0xA5A5A5A5, enable := 0x00000009, mux := 0x000001B3 }
    the_timer := { armed := true, period := 250, repeat_flag := false,
                   pfunction := FuncPtr.other 0x40100000, parg := 7 }
    history := [] }

theorem testBit_BIT2 (i : Nat) : Nat.testBit BIT2 i = decide (i = 2) := by
  have h : BIT2 = 2 ^ 2 := by decide
  rw [h, Nat.testBit_two_pow]
  simp [eq_comm]

theorem testBit_UINT32_MAX (i : Nat) : Nat.testBit UINT32_MAX i = decide (i < 32) := by
  unfold UINT32_MAX
  exact Nat.testBit_two_pow_sub_one 32 i

theorem testBit_of_lt_of_le {r i : Nat} (h : r < 2 ^ 32) (hi : 32 ≤ i) :
    Nat.testBit r i = false := by
  apply Nat.testBit_lt_two_pow
  calc r < 2 ^ 32 := h
    _ ≤ 2 ^ i := Nat.pow_le_pow_right (by decide) hi

theorem and_BIT2_ne_zero (r : Nat) : (r &&& BIT2 ≠ 0) ↔ Nat.testBit r 2 = true := by
  have h := Nat.and_two_pow r 2
  have h4 : BIT2 = 2 ^ 2 := by decide
  rw [h4, h]
  cases Nat.testBit r 2 <;> simp

theorem gpio_output_set_out_testBit (sm cm em dm : Nat) (g : Gpio) (i : Nat) :
    Nat.testBit (gpio_output_set sm cm em dm g).out i =
      (decide (i < 32) && ((Nat.testBit g.out i || Nat.testBit sm i) && !Nat.testBit cm i)) := by
  simp only [gpio_output_set, Nat.testBit_mod_two_pow, Nat.testBit_and, Nat.testBit_or,
    Nat.testBit_xor, testBit_UINT32_MAX]
  cases decide (i < 32) <;> cases Nat.testBit g.out i <;> cases Nat.testBit sm i <;>
    cases Nat.testBit cm i <;> rfl

theorem gpio_output_set_mux (sm cm em dm : Nat) (g : Gpio) :
    (gpio_output_set sm cm em dm g).mux = g.mux := rfl

theorem gpio_output_set_out_lt (sm cm em dm : Nat) (g : Gpio) :
    (gpio_output_set sm cm em dm g).out < 2 ^ 32 :=
  Nat.mod_lt _ (by decide)

theorem gpio_output_set_enable_lt (sm cm em dm : Nat) (g : Gpio) :
    (gpio_output_set sm cm em dm g).enable < 2 ^ 32 :=
  Nat.mod_lt _ (by decide)

/-- The two branches of `timer_function`, on the registers. -/
theorem timer_function_gpio (s : Hw) :
    (timer_function s).gpio =
      if Nat.testBit s.gpio.out 2 = true then gpio_output_set 0 BIT2 BIT2 0 s.gpio
      else gpio_output_set BIT2 0 BIT2 0 s.gpio := by
  unfold timer_function os_delay_us GPIO_REG_READ_OUT
  by_cases h : Nat.testBit s.gpio.out 2 = true
  · have h1 : s.gpio.out &&& BIT2 ≠ 0 := (and_BIT2_ne_zero _).2 h
    simp [h, h1]
  · have h1 : ¬ (s.gpio.out &&& BIT2 ≠ 0) := fun hc => h ((and_BIT2_ne_zero _).1 hc)
    rw [if_neg h]
    simp only [h1, if_false]

theorem timer_function_the_timer (s : Hw) : (timer_function s).the_timer = s.the_timer := by
  unfold timer_function os_delay_us
  split <;> rfl

theorem timer_function_history (s : Hw) : (timer_function s).history = s.history := by
  unfold timer_function os_delay_us
  split <;> rfl

/-- Bit `i` of the output register after one run of `timer_function`. -/
theorem timer_function_out_testBit (s : Hw) (i : Nat) :
    Nat.testBit (timer_function s).gpio.out i =
      (decide (i < 32) && (Nat.testBit s.gpio.out i ^^ decide (i = 2))) := by
  rw [timer_function_gpio]
  by_cases h : Nat.testBit s.gpio.out 2 = true
  · rw [if_pos h, gpio_output_set_out_testBit, testBit_BIT2]
    by_cases hi : i = 2
    · subst hi; simp [h]
    · simp [hi]
  · rw [if_neg h, gpio_output_set_out_testBit, testBit_BIT2]
    by_cases hi : i = 2
    · subst hi; simp [h]
    · simp [hi]

theorem timer_function_out_lt (s : Hw) : (timer_function s).gpio.out < 2 ^ 32 := by
  rw [timer_function_gpio]
  split <;> exact gpio_output_set_out_lt _ _ _ _ _

theorem timer_function_enable_lt (s : Hw) : (timer_function s).gpio.enable < 2 ^ 32 := by
  rw [timer_function_gpio]
  split <;> exact gpio_output_set_enable_lt _ _ _ _ _

/-- On a 32-bit output register `timer_function` is exclusive-or with `BIT2`. -/
theorem timer_function_out_xor (s : Hw) (h : s.gpio.out < 2 ^ 32) :
    (timer_function s).gpio.out = s.gpio.out ^^^ BIT2 := by
  apply Nat.eq_of_testBit_eq
  intro i
  rw [timer_function_out_testBit, Nat.testBit_xor, testBit_BIT2]
  by_cases hi : i < 32
  · simp [hi]
  · have h0 : Nat.testBit s.gpio.out i = false := testBit_of_lt_of_le h (by omega)
    have h2 : i ≠ 2 := by omega
    simp [hi, h0, h2]

/-! ## Lemmas on `user_init`, iteration and firing -/

theorem user_init_gpio (gpio_init : Gpio → Gpio) (s : Hw) :
    (user_init gpio_init s).gpio =
      gpio_output_set 0 BIT2 BIT2 0 (pin_func_select_gpio2 FUNC_GPIO2 (gpio_init s.gpio)) :=
  rfl

theorem user_init_the_timer (gpio_init : Gpio → Gpio) (s : Hw) :
    (user_init gpio_init s).the_timer = armedTimer :=
  rfl

theorem user_init_history (gpio_init : Gpio → Gpio) (s : Hw) :
    (user_init gpio_init s).history =
      s.history ++ [(TimerCall.disarm, s.the_timer.armed),
        (TimerCall.setfn FuncPtr.timer_function 0, false),
        (TimerCall.arm 1000 true, false)] := by
  simp [user_init, os_timer_disarm, os_timer_setfn, os_timer_arm]

theorem user_init_out_testBit (gpio_init : Gpio → Gpio) (s : Hw) (i : Nat) :
    Nat.testBit (user_init gpio_init s).gpio.out i =
      (decide (i < 32) && (Nat.testBit (gpio_init s.gpio).out i && !decide (i = 2))) := by
  rw [user_init_gpio, gpio_output_set_out_testBit, testBit_BIT2]
  simp [pin_func_select_gpio2]

theorem iterate_timer_function_the_timer (k : Nat) (s : Hw) :
    (timer_function^[k] s).the_timer = s.the_timer := by
  induction k with
  | zero => rfl
  | succ k ih => rw [Function.iterate_succ_apply', timer_function_the_timer, ih]

theorem iterate_timer_function_history (k : Nat) (s : Hw) :
    (timer_function^[k] s).history = s.history := by
  induction k with
  | zero => rfl
  | succ k ih => rw [Function.iterate_succ_apply', timer_function_history, ih]

/-- Bit 2 of the output register after `k` runs of `timer_function`. -/
theorem iterate_timer_function_bit2 (k : Nat) (s : Hw) :
    Nat.testBit (timer_function^[k] s).gpio.out 2 =
      (Nat.testBit s.gpio.out 2 ^^ decide (k % 2 = 1)) := by
  induction k with
  | zero => simp
  | succ k ih =>
    rw [Function.iterate_succ_apply', timer_function_out_testBit, ih]
    rcases Nat.mod_two_eq_zero_or_one k with h | h
    · have h1 : (k + 1) % 2 = 1 := by omega
      simp [h, h1]
    · have h1 : (k + 1) % 2 = 0 := by omega
      simp [h, h1]

theorem fire_of_armedTimer (s : Hw) (h : s.the_timer = armedTimer) :
    fire s = some (timer_function s) := by
  simp [fire, h, timer_function_the_timer, armedTimer]

theorem fireN_of_armedTimer (k : Nat) (s : Hw) (h : s.the_timer = armedTimer) :
    fireN k s = some (timer_function^[k] s) := by
  induction k generalizing s with
  | zero => rfl
  | succ k ih =>
    have h1 : (timer_function s).the_timer = armedTimer := by
      rw [timer_function_the_timer, h]
    rw [fireN, fire_of_armedTimer s h, Option.some_bind, ih _ h1,
      Function.iterate_succ_apply]

/-- One application of `PIN_FUNC_SELECT` bit by bit: inside 32 bits, a bit is
set when it was set outside the field or when the encoding of `func` sets it. -/
theorem PIN_FUNC_SELECT_testBit (reg func i : Nat) :
    Nat.testBit (PIN_FUNC_SELECT reg func) i =
      (decide (i < 32) &&
        ((Nat.testBit reg i &&
            (decide (i < 32) ^^
              Nat.testBit (PERIPHS_IO_MUX_FUNC <<< PERIPHS_IO_MUX_FUNC_S) i)) ||
          Nat.testBit ((((func &&& BIT2) <<< 2) ||| (func &&& 0x3))
            <<< PERIPHS_IO_MUX_FUNC_S) i)) := by
  unfold PIN_FUNC_SELECT
  rw [Nat.testBit_mod_two_pow, Nat.testBit_or, Nat.testBit_and, Nat.testBit_xor,
    testBit_UINT32_MAX]

theorem PIN_FUNC_SELECT_idem (reg func : Nat) :
    PIN_FUNC_SELECT (PIN_FUNC_SELECT reg func) func = PIN_FUNC_SELECT reg func := by
  apply Nat.eq_of_testBit_eq
  intro i
  rw [PIN_FUNC_SELECT_testBit (PIN_FUNC_SELECT reg func), PIN_FUNC_SELECT_testBit reg func]
  cases decide (i < 32) <;> cases Nat.testBit reg i <;>
    cases Nat.testBit (PERIPHS_IO_MUX_FUNC <<< PERIPHS_IO_MUX_FUNC_S) i <;>
    cases Nat.testBit ((((func &&& BIT2) <<< 2) ||| (func &&& 0x3))
      <<< PERIPHS_IO_MUX_FUNC_S) i <;> rfl

theorem pin_func_select_gpio2_idem (func : Nat) (g : Gpio) :
    pin_func_select_gpio2 func (pin_func_select_gpio2 func g) =
      pin_func_select_gpio2 func g := by
  simp [pin_func_select_gpio2, PIN_FUNC_SELECT_idem]

theorem iterate_pin_func_select_gpio2 (func : Nat) (n : Nat) (g : Gpio) :
    (pin_func_select_gpio2 func)^[n + 1] g = pin_func_select_gpio2 func g := by
  induction n with
  | zero => rfl
  | succ n ih => rw [Function.iterate_succ_apply', ih, pin_func_select_gpio2_idem]

/-! ## The claims -/

/-- C1: for every 32-bit value of the GPIO output register, one execution of
`timer_function` leaves the output register equal to the old value XOR `BIT2`:
bit 2 is inverted and every other output bit keeps its value.  The value is
the one found in the register when the callback runs, whatever wrote it. -/
theorem C1_timer_function_xor_BIT2 (s : Hw) (h : s.gpio.out < 2 ^ 32) :
    (timer_function s).gpio.out = s.gpio.out ^^^ BIT2 ∧
    Nat.testBit (timer_function s).gpio.out 2 = !Nat.testBit s.gpio.out 2 ∧
    ∀ i, i ≠ 2 → Nat.testBit (timer_function s).gpio.out i = Nat.testBit s.gpio.out i := by
  have hx := timer_function_out_xor s h
  refine ⟨hx, ?_, ?_⟩
  · rw [hx, Nat.testBit_xor, testBit_BIT2]
    simp
  · intro i hi
    rw [hx, Nat.testBit_xor, testBit_BIT2]
    simp [hi]

theorem C1_witness :
    sampleHw.gpio.out < 2 ^ 32 ∧
    (timer_function sampleHw).gpio.out = sampleHw.gpio.out ^^^ BIT2 ∧
    Nat.testBit (timer_function sampleHw).gpio.out 2 = !Nat.testBit sampleHw.gpio.out 2 :=
  ⟨by decide, (C1_timer_function_xor_BIT2 sampleHw (by decide)).1,
    (C1_timer_function_xor_BIT2 sampleHw (by decide)).2.1⟩

/-- C2: end-to-end scenario.  For every initial hardware state and whatever
`gpio_init` does to the registers, bit 2 of the output register is 0 after
`user_init`; every number `k` of consecutive firings is defined and is `k`
runs of `timer_function`, after which bit 2 equals `k mod 2`; in particular it
is 1 after the 1st firing, 0 after the 2nd and 1 after the 3rd. -/
theorem C2_end_to_end (gpio_init : Gpio → Gpio) (s : Hw) :
    Nat.testBit (user_init gpio_init s).gpio.out 2 = false ∧
    (∀ k, fireN k (user_init gpio_init s) =
        some (timer_function^[k] (user_init gpio_init s)) ∧
      Nat.testBit (timer_function^[k] (user_init gpio_init s)).gpio.out 2 =
        decide (k % 2 = 1)) ∧
    (fireN 1 (user_init gpio_init s)).map (fun t => Nat.testBit t.gpio.out 2) = some true ∧
    (fireN 2 (user_init gpio_init s)).map (fun t => Nat.testBit t.gpio.out 2) = some false ∧
    (fireN 3 (user_init gpio_init s)).map (fun t => Nat.testBit t.gpio.out 2) = some true := by
  have h0 : Nat.testBit (user_init gpio_init s).gpio.out 2 = false := by
    rw [user_init_out_testBit]
    simp
  have hk : ∀ k, fireN k (user_init gpio_init s) =
        some (timer_function^[k] (user_init gpio_init s)) ∧
      Nat.testBit (timer_function^[k] (user_init gpio_init s)).gpio.out 2 =
        decide (k % 2 = 1) := by
    intro k
    refine ⟨fireN_of_armedTimer k _ (user_init_the_timer gpio_init s), ?_⟩
    rw [iterate_timer_function_bit2, h0]
    simp
  refine ⟨h0, hk, ?_, ?_, ?_⟩
  · rw [(hk 1).1, Option.map_some', (hk 1).2]
    rfl
  · rw [(hk 2).1, Option.map_some', (hk 2).2]
    rfl
  · rw [(hk 3).1, Option.map_some', (hk 3).2]
    rfl

/-- C3, as stated, fails: from a state whose output register has bit 2 set,
`user_init` returns with bit 2 cleared, so it does not leave the pin level as
it found it. -/
theorem C3_counterexample :
    Nat.testBit sampleHw.gpio.out 2 = true ∧
    Nat.testBit (user_init id sampleHw).gpio.out 2 = false := by
  decide

/-- C3, amended: the pin level (bit 2 of the GPIO output register) is written
by `user_init` and by the timer callback.  `user_init` writes it LOW: for
every hardware state, and whatever `gpio_init` does, bit 2 of the output
register is 0 after `user_init`, so `user_init` leaves bit 2 as it found it
exactly when it was already 0.  After initialization every firing of
`timer_function` inverts it. -/
theorem C3_user_init_writes_pin_low (gpio_init : Gpio → Gpio) (s : Hw) :
    Nat.testBit (user_init gpio_init s).gpio.out 2 = false ∧
    (Nat.testBit (user_init gpio_init s).gpio.out 2 = Nat.testBit s.gpio.out 2 ↔
      Nat.testBit s.gpio.out 2 = false) ∧
    ∀ k, Nat.testBit (timer_function (timer_function^[k] (user_init gpio_init s))).gpio.out 2 =
      !Nat.testBit (timer_function^[k] (user_init gpio_init s)).gpio.out 2 := by
  have h0 : Nat.testBit (user_init gpio_init s).gpio.out 2 = false := by
    rw [user_init_out_testBit]
    simp
  refine ⟨h0, ?_, ?_⟩
  · rw [h0]
    exact eq_comm
  · intro k
    rw [timer_function_out_testBit]
    simp

/-- C5: idempotent configuration.  For every value of the pin multiplexer
register, performing the pin configuration step of `user_init`,
`PIN_FUNC_SELECT(PERIPHS_IO_MUX_GPIO2_U, FUNC_GPIO2)`, two or more times in a
row yields the same registers as performing it once, so the set-level
operation and any number of toggles that follow give the same state. -/
theorem C5_configuration_idempotent (s : Hw) (n k : Nat) :
    PIN_FUNC_SELECT (PIN_FUNC_SELECT s.gpio.mux FUNC_GPIO2) FUNC_GPIO2 =
      PIN_FUNC_SELECT s.gpio.mux FUNC_GPIO2 ∧
    (pin_func_select_gpio2 FUNC_GPIO2)^[n + 1] s.gpio =
      pin_func_select_gpio2 FUNC_GPIO2 s.gpio ∧
    timer_function^[k]
        { gpio := gpio_output_set 0 BIT2 BIT2 0
            ((pin_func_select_gpio2 FUNC_GPIO2)^[n + 1] s.gpio),
          the_timer := s.the_timer, history := s.history } =
      timer_function^[k]
        { gpio := gpio_output_set 0 BIT2 BIT2 0 (pin_func_select_gpio2 FUNC_GPIO2 s.gpio),
          the_timer := s.the_timer, history := s.history } := by
  refine ⟨PIN_FUNC_SELECT_idem _ _, iterate_pin_func_select_gpio2 _ n _, ?_⟩
  rw [iterate_pin_func_select_gpio2]

/-- C6: for every initial state of the timer (armed or not, any previous
period, repeat flag, callback or argument), after `user_init` returns the
timer is Armed with period 1000 ms, repeat enabled and `timer_function` as its
bound callback, so that a firing runs `timer_function`. -/
theorem C6_user_init_arms_timer (gpio_init : Gpio → Gpio) (s : Hw) :
    (user_init gpio_init s).the_timer.armed = true ∧
    (user_init gpio_init s).the_timer.period = 1000 ∧
    (user_init gpio_init s).the_timer.repeat_flag = true ∧
    (user_init gpio_init s).the_timer.pfunction = FuncPtr.timer_function ∧
    fire (user_init gpio_init s) = some (timer_function (user_init gpio_init s)) :=
  ⟨rfl, rfl, rfl, rfl, fire_of_armedTimer _ (user_init_the_timer gpio_init s)⟩

/-- C7: `user_init` respects the state machine of the Periodic Invoker for
every initial timer state.  The timer-service calls it makes are, in this
order, disarm, bind of `timer_function`, arm(1000, repeat); the bind and the
arm are both made while the timer is Disarmed, and every call that
`user_init` adds to the history is permitted in the state in which it is
made. -/
theorem C7_disarm_bind_arm (gpio_init : Gpio → Gpio) (s : Hw) :
    (user_init gpio_init s).history =
      s.history ++ [(TimerCall.disarm, s.the_timer.armed),
        (TimerCall.setfn FuncPtr.timer_function 0, false),
        (TimerCall.arm 1000 true, false)] ∧
    ((user_init gpio_init s).history.drop s.history.length).all callPermitted = true := by
  refine ⟨user_init_history gpio_init s, ?_⟩
  rw [user_init_history, List.drop_left]
  rfl

/-- C8: the timer registration is never reconfigured or torn down after
initialization.  `timer_function` leaves `the_timer` as it is and makes no
timer-service call; so after any number of firings from the end of
`user_init` (each of which is defined) the timer is still Armed with period
1000 ms, repeat enabled and callback `timer_function`, and no timer-service
call has been made since `user_init`. -/
theorem C8_registration_persists (gpio_init : Gpio → Gpio) (s : Hw) (k : Nat) :
    (timer_function s).the_timer = s.the_timer ∧
    (timer_function s).history = s.history ∧
    ∃ t, fireN k (user_init gpio_init s) = some t ∧
      t.the_timer = armedTimer ∧
      t.the_timer.armed = true ∧ t.the_timer.period = 1000 ∧
      t.the_timer.repeat_flag = true ∧ t.the_timer.pfunction = FuncPtr.timer_function ∧
      t.history = (user_init gpio_init s).history := by
  refine ⟨timer_function_the_timer s, timer_function_history s,
    timer_function^[k] (user_init gpio_init s),
    fireN_of_armedTimer k _ (user_init_the_timer gpio_init s), ?_⟩
  have ht : (timer_function^[k] (user_init gpio_init s)).the_timer = armedTimer := by
    rw [iterate_timer_function_the_timer, user_init_the_timer]
  refine ⟨ht, ?_, ?_, ?_, ?_, iterate_timer_function_history k _⟩ <;> rw [ht] <;> rfl

end BlinkWTimer
